import Mathlib

/-!
Shallow embedding of the payment_engine repository (Rust sources under src/):
model.rs (Transaction, Account, rounding, amount deserialization),
datastore.rs (keyed transaction and account stores; the LRU cache layer sits
in front of the backing store and is kept coherent with it by the code, so it
is elided), payment_service.rs (the per-type transaction handlers and the run
loop). rust_decimal values are modelled as rationals: equality, ordering,
addition and subtraction of decimals are value-exact, and round_dp uses
midpoint-nearest-even rounding, which depends only on the numeric value.
I/O, serialization and pickle storage failures are out of scope; store
operations are total except set_transaction_disputed on a missing id.
-/

namespace PaymentEngine

/-- Midpoint-nearest-even rounding of a rational to an integer, the rounding
strategy rust_decimal round_dp applies to the digit stream. -/
def roundHalfEven (q : ℚ) : ℤ :=
  if q - (⌊q⌋ : ℚ) < 1/2 then ⌊q⌋
  else if (1/2 : ℚ) < q - (⌊q⌋ : ℚ) then ⌊q⌋ + 1
  else if Even ⌊q⌋ then ⌊q⌋ else ⌊q⌋ + 1

/-- Value of Decimal.round_dp(4) from model.rs (DECIMAL_POINT = 4). -/
def roundDp4 (q : ℚ) : ℚ := (roundHalfEven (q * 10000) : ℚ) / 10000

/-- The rational is representable at 4 fractional decimal digits, the form
every value has after round_dp(4). -/
def IsScale4 (q : ℚ) : Prop := ∃ n : ℤ, q = (n : ℚ) / 10000

/-- TransactionType from model.rs. -/
inductive TransactionType where
  | Deposit
  | Withdrawal
  | Dispute
  | Resolve
  | Chargeback
deriving DecidableEq

/-- PaymentEngineError from error.rs; the CSV/JSON/pickle I/O variants carry
external causes and are elided with the I/O boundary. -/
inductive PaymentEngineError where
  | NoAmount
  | InsufficientAccountFunds
  | DisputedTransactionNotFound
  | InvalidDisputedTransactionType
  | TransactionAlreadyDisputed
  | DisputedValueChange
  | TransactionNotDisputed
deriving DecidableEq

/-- Transaction record from model.rs; client_id is u16 and transaction_id is
u32 in the source, modelled as Nat (no arithmetic is done on them). -/
structure Transaction where
  type : TransactionType
  client_id : Nat
  transaction_id : Nat
  amount : Option ℚ
  disputed : Bool
deriving DecidableEq

/-- Account record from model.rs. -/
structure Account where
  client_id : Nat
  available : ℚ
  held : ℚ
  total : ℚ
  locked : Bool
deriving DecidableEq

/-- Account::new from model.rs: zeroed account for the client. -/
def Account.new (c : Nat) : Account :=
  { client_id := c, available := 0, held := 0, total := 0, locked := false }

/-- Account::round_values from model.rs. -/
def Account.round_values (a : Account) : Account :=
  { a with
    available := roundDp4 a.available
    held := roundDp4 a.held
    total := roundDp4 a.total }

/-- Digit accumulator for rust_decimal Decimal::from_str, the collaborator of
amount_deserializer at the input boundary: mantissa and fractional-digit
count so far, whether a decimal point was seen, whether a digit was seen.
Digits extend the mantissa (counting scale after the point), one point is
allowed, underscore separators are allowed after a first digit, anything
else fails. The crate's 28-digit capacity limit and scientific forms are
outside the inputs this development uses. -/
def parseDecimalCore : List Char → ℤ → Nat → Bool → Bool → Option (ℤ × Nat)
  | [], m, s, _, seenDigit => if seenDigit then some (m, s) else none
  | ch :: rest, m, s, point, seenDigit =>
    if ch.isDigit then
      parseDecimalCore rest (m * 10 + ((ch.toNat : ℤ) - 48))
        (if point then s + 1 else s) point true
    else if ch = '_' then
      if seenDigit then parseDecimalCore rest m s point seenDigit else none
    else if ch = '.' then
      if point then none else parseDecimalCore rest m s true seenDigit
    else none

/-- Value of rust_decimal Decimal::from_str on a plain decimal string: an
optional sign followed by digits with at most one point; the mantissa over
ten to the scale. -/
def decimalFromStr (str : String) : Option ℚ :=
  match str.data with
  | '-' :: rest =>
    (parseDecimalCore rest 0 0 false false).map
      fun p => -((p.1 : ℚ) / (10 : ℚ) ^ p.2)
  | '+' :: rest =>
    (parseDecimalCore rest 0 0 false false).map
      fun p => (p.1 : ℚ) / (10 : ℚ) ^ p.2
  | rest =>
    (parseDecimalCore rest 0 0 false false).map
      fun p => (p.1 : ℚ) / (10 : ℚ) ^ p.2

/-- amount_deserializer from model.rs: empty text is an absent amount; a
parsed value of exactly zero is an absent amount; any other parsed value is
rounded to 4 fractional digits; unparseable text is a deserialization
error. -/
def amount_deserializer (s : String) : Except String (Option ℚ) :=
  if s.isEmpty then .ok none
  else
    match decimalFromStr s with
    | some q => if q = 0 then .ok none else .ok (some (roundDp4 q))
    | none => .error "value cannot be converted to decimal"

/-- Lookup in the transaction store by transaction_id (key of the pickle db
and of the MockDatastore vector). -/
def findTransaction (l : List Transaction) (id : Nat) : Option Transaction :=
  l.find? fun t => t.transaction_id == id

/-- Keyed overwrite, the semantics of PickleDb.set on the transaction key. -/
def upsertTransaction : List Transaction → Transaction → List Transaction
  | [], t => [t]
  | u :: l, t =>
    if u.transaction_id = t.transaction_id then t :: l
    else u :: upsertTransaction l t

/-- Lookup in the account store by client_id (HashMap.get). -/
def findAccount (l : List Account) (c : Nat) : Option Account :=
  l.find? fun a => a.client_id == c

/-- Keyed overwrite, the semantics of HashMap.insert keyed by client_id. -/
def upsertAccount : List Account → Account → List Account
  | [], a => [a]
  | b :: l, a =>
    if b.client_id = a.client_id then a :: l
    else b :: upsertAccount l a

/-- State of the PickleDatastore: the durable transaction db and the account
map. The disputed-transactions LRU cache is a coherent front for the db
(populated and invalidated together with it) and is elided. -/
structure Datastore where
  transactions : List Transaction
  accounts : List Account
deriving DecidableEq

/-- DatastoreOperations::retrieve_transaction (cache falls through to db). -/
def Datastore.retrieve_transaction (ds : Datastore) (id : Nat) :
    Option Transaction :=
  findTransaction ds.transactions id

/-- DatastoreOperations::save_transaction. -/
def Datastore.save_transaction (ds : Datastore) (t : Transaction) : Datastore :=
  { ds with transactions := upsertTransaction ds.transactions t }

/-- DatastoreOperations::retrieve_account. -/
def Datastore.retrieve_account (ds : Datastore) (c : Nat) : Option Account :=
  findAccount ds.accounts c

/-- DatastoreOperations::save_account. -/
def Datastore.save_account (ds : Datastore) (a : Account) : Datastore :=
  { ds with accounts := upsertAccount ds.accounts a }

/-- DatastoreOperations::retrieve_all_accounts. -/
def Datastore.retrieve_all_accounts (ds : Datastore) : List Account :=
  ds.accounts

/-- DatastoreOperations::set_transaction_disputed: retrieve the record, flip
its disputed flag and save it back; errors with DisputedValueChange when the
id is unknown. The Rust datastore is mutated in place, so the updated store
is returned alongside the error channel. -/
def Datastore.set_transaction_disputed (ds : Datastore) (id : Nat) (b : Bool) :
    Datastore × Except PaymentEngineError Unit :=
  match findTransaction ds.transactions id with
  | some t =>
      let t := { t with disputed := b }
      ({ ds with transactions := upsertTransaction ds.transactions t }, .ok ())
  | none => (ds, .error .DisputedValueChange)

/-- DatastoreOperations::remove_transaction_from_cache: a cache hint only,
with no effect on the store contents. -/
def Datastore.remove_transaction_from_cache (ds : Datastore) (_id : Nat) :
    Datastore :=
  ds

namespace PaymentService

/-- PaymentService::save_account_to_datastore: round the account values and
persist the account. -/
def save_account_to_datastore (ds : Datastore) (a : Account) :
    Datastore × Account :=
  let a := a.round_values
  (ds.save_account a, a)

/-- PaymentService::handle_deposit. -/
def handle_deposit (ds : Datastore) (t : Transaction) (a : Account) :
    Datastore × Except PaymentEngineError Account :=
  match t.amount with
  | none => (ds, .error .NoAmount)
  | some amount =>
    let a := { a with available := a.available + amount
                      total := a.total + amount }
    let ds := ds.save_transaction t
    let (ds, a) := save_account_to_datastore ds a
    (ds, .ok a)

/-- PaymentService::handle_withdrawal. -/
def handle_withdrawal (ds : Datastore) (t : Transaction) (a : Account) :
    Datastore × Except PaymentEngineError Account :=
  match t.amount with
  | none => (ds, .error .NoAmount)
  | some amount =>
    if amount > a.available then (ds, .error .InsufficientAccountFunds)
    else
      let a := { a with available := a.available - amount
                        total := a.total - amount }
      let ds := ds.save_transaction t
      let (ds, a) := save_account_to_datastore ds a
      (ds, .ok a)

/-- PaymentService::handle_dispute. -/
def handle_dispute (ds : Datastore) (t : Transaction) (a : Account) :
    Datastore × Except PaymentEngineError Account :=
  match ds.retrieve_transaction t.transaction_id with
  | none => (ds, .error .DisputedTransactionNotFound)
  | some rt =>
    if rt.disputed then (ds, .error .TransactionAlreadyDisputed)
    else
      match rt.amount with
      | none => (ds, .error .NoAmount)
      | some amount =>
        match rt.type with
        | .Deposit =>
          let a := { a with available := a.available - amount
                            held := a.held + amount }
          let (ds, r) := ds.set_transaction_disputed rt.transaction_id true
          match r with
          | .error e => (ds, .error e)
          | .ok _ =>
            let (ds, a) := save_account_to_datastore ds a
            (ds, .ok a)
        | .Withdrawal =>
          let a := { a with held := a.held + amount
                            total := a.total + amount }
          let (ds, r) := ds.set_transaction_disputed rt.transaction_id true
          match r with
          | .error e => (ds, .error e)
          | .ok _ =>
            let (ds, a) := save_account_to_datastore ds a
            (ds, .ok a)
        | _ => (ds, .error .InvalidDisputedTransactionType)

/-- PaymentService::remove_disputed_state: clear the disputed flag and drop
the cache entry. -/
def remove_disputed_state (ds : Datastore) (id : Nat) :
    Datastore × Except PaymentEngineError Unit :=
  let (ds, r) := ds.set_transaction_disputed id false
  match r with
  | .error e => (ds, .error e)
  | .ok _ => (ds.remove_transaction_from_cache id, .ok ())

/-- PaymentService::handle_resolve. -/
def handle_resolve (ds : Datastore) (t : Transaction) (a : Account) :
    Datastore × Except PaymentEngineError Account :=
  match ds.retrieve_transaction t.transaction_id with
  | none => (ds, .error .DisputedTransactionNotFound)
  | some rt =>
    if !rt.disputed then (ds, .error .TransactionNotDisputed)
    else
      match rt.amount with
      | none => (ds, .error .NoAmount)
      | some amount =>
        match rt.type with
        | .Deposit | .Withdrawal =>
          let a := { a with available := a.available + amount
                            held := a.held - amount }
          let (ds, r) := remove_disputed_state ds rt.transaction_id
          match r with
          | .error e => (ds, .error e)
          | .ok _ =>
            let (ds, a) := save_account_to_datastore ds a
            (ds, .ok a)
        | _ => (ds, .error .InvalidDisputedTransactionType)

/-- PaymentService::handle_chargeback. -/
def handle_chargeback (ds : Datastore) (t : Transaction) (a : Account) :
    Datastore × Except PaymentEngineError Account :=
  match ds.retrieve_transaction t.transaction_id with
  | none => (ds, .error .DisputedTransactionNotFound)
  | some rt =>
    if !rt.disputed then (ds, .error .TransactionNotDisputed)
    else
      match rt.amount with
      | none => (ds, .error .NoAmount)
      | some amount =>
        match rt.type with
        | .Deposit | .Withdrawal =>
          let a := { a with held := a.held - amount
                            total := a.total - amount
                            locked := true }
          let (ds, r) := remove_disputed_state ds rt.transaction_id
          match r with
          | .error e => (ds, .error e)
          | .ok _ =>
            let (ds, a) := save_account_to_datastore ds a
            (ds, .ok a)
        | _ => (ds, .error .InvalidDisputedTransactionType)

/-- PaymentService::process_transaction. -/
def process_transaction (ds : Datastore) (t : Transaction) (a : Account) :
    Datastore × Except PaymentEngineError Account :=
  match t.type with
  | .Deposit => handle_deposit ds t a
  | .Withdrawal => handle_withdrawal ds t a
  | .Dispute => handle_dispute ds t a
  | .Resolve => handle_resolve ds t a
  | .Chargeback => handle_chargeback ds t a

/-- PaymentService::retrieve_account: a zeroed account is built for a client
the store does not know yet (it is not persisted here). -/
def retrieve_account (ds : Datastore) (c : Nat) : Account :=
  match ds.retrieve_account c with
  | none => Account.new c
  | some a => a

/-- One iteration of the loop in PaymentService::run: look the account up,
process the row, keep whatever the datastore now holds (an error leaves the
row skipped and the read account discarded). -/
def runStep (ds : Datastore) (t : Transaction) : Datastore :=
  (process_transaction ds t (retrieve_account ds t.client_id)).1

/-- The loop of PaymentService::run over the successfully parsed rows. -/
def runList (ds : Datastore) : List Transaction → Datastore
  | [] => ds
  | t :: ts => runList (runStep ds t) ts

end PaymentService

theorem roundHalfEven_intCast (n : ℤ) : roundHalfEven (n : ℚ) = n := by
  norm_num [roundHalfEven]

theorem isScale4_zero : IsScale4 0 := ⟨0, by norm_num⟩

theorem IsScale4.add {q r : ℚ} (hq : IsScale4 q) (hr : IsScale4 r) :
    IsScale4 (q + r) := by
  obtain ⟨m, rfl⟩ := hq
  obtain ⟨n, rfl⟩ := hr
  exact ⟨m + n, by push_cast; ring⟩

theorem IsScale4.sub {q r : ℚ} (hq : IsScale4 q) (hr : IsScale4 r) :
    IsScale4 (q - r) := by
  obtain ⟨m, rfl⟩ := hq
  obtain ⟨n, rfl⟩ := hr
  exact ⟨m - n, by push_cast; ring⟩

theorem roundDp4_eq_self {q : ℚ} (h : IsScale4 q) : roundDp4 q = q := by
  obtain ⟨n, rfl⟩ := h
  have h10 : ((n : ℚ) / 10000) * 10000 = (n : ℚ) := by
    field_simp
  rw [roundDp4, h10, roundHalfEven_intCast]

theorem isScale4_roundDp4 (q : ℚ) : IsScale4 (roundDp4 q) :=
  ⟨roundHalfEven (q * 10000), rfl⟩

theorem findTransaction_some_id {l : List Transaction} {i : Nat}
    {t : Transaction} (h : findTransaction l i = some t) :
    t.transaction_id = i := by
  have := List.find?_some h
  simpa using this

theorem findAccount_some_id {l : List Account} {c : Nat} {a : Account}
    (h : findAccount l c = some a) : a.client_id = c := by
  have := List.find?_some h
  simpa using this

theorem findAccount_upsertAccount (l : List Account) (a : Account) (c : Nat) :
    findAccount (upsertAccount l a) c =
      if a.client_id = c then some a else findAccount l c := by
  induction l with
  | nil =>
    by_cases h : a.client_id = c
    · have hb : (a.client_id == c) = true := by simpa using h
      simp [upsertAccount, findAccount, List.find?, hb, h]
    · have hb : (a.client_id == c) = false := by simpa using h
      simp [upsertAccount, findAccount, List.find?, hb, h]
  | cons b l ih =>
    by_cases hba : b.client_id = a.client_id
    · by_cases h : a.client_id = c
      · have hb : (a.client_id == c) = true := by simpa using h
        simp [upsertAccount, findAccount, List.find?, hba, hb, h]
      · have hb : (a.client_id == c) = false := by simpa using h
        have hbc : (b.client_id == c) = false := by simpa [hba] using h
        simp [upsertAccount, findAccount, List.find?, hba, hb, h, hbc]
    · by_cases hbc : b.client_id = c
      · have hac : ¬ a.client_id = c := fun hh => hba (by rw [hbc, hh])
        have hb : (b.client_id == c) = true := by simpa using hbc
        simp [upsertAccount, findAccount, List.find?, hba, hb, hac]
      · have hb : (b.client_id == c) = false := by simpa using hbc
        simp only [upsertAccount, if_neg hba, findAccount, List.find?, hb]
        simpa [findAccount] using ih

theorem findTransaction_upsertTransaction (l : List Transaction)
    (t : Transaction) (i : Nat) :
    findTransaction (upsertTransaction l t) i =
      if t.transaction_id = i then some t else findTransaction l i := by
  induction l with
  | nil =>
    by_cases h : t.transaction_id = i
    · have hb : (t.transaction_id == i) = true := by simpa using h
      simp [upsertTransaction, findTransaction, List.find?, hb, h]
    · have hb : (t.transaction_id == i) = false := by simpa using h
      simp [upsertTransaction, findTransaction, List.find?, hb, h]
  | cons u l ih =>
    by_cases hut : u.transaction_id = t.transaction_id
    · by_cases h : t.transaction_id = i
      · have hb : (t.transaction_id == i) = true := by simpa using h
        simp [upsertTransaction, findTransaction, List.find?, hut, hb, h]
      · have hb : (t.transaction_id == i) = false := by simpa using h
        have hui : (u.transaction_id == i) = false := by simpa [hut] using h
        simp [upsertTransaction, findTransaction, List.find?, hut, hb, h, hui]
    · by_cases hui : u.transaction_id = i
      · have hti : ¬ t.transaction_id = i := fun hh => hut (by rw [hui, hh])
        have hb : (u.transaction_id == i) = true := by simpa using hui
        simp [upsertTransaction, findTransaction, List.find?, hut, hb, hti]
      · have hb : (u.transaction_id == i) = false := by simpa using hui
        simp only [upsertTransaction, if_neg hut, findTransaction, List.find?,
          hb]
        simpa [findTransaction] using ih

namespace PaymentService

theorem handle_deposit_ok (ds : Datastore) (t : Transaction) (a : Account)
    {A : ℚ} (hamt : t.amount = some A) :
    handle_deposit ds t a =
      ((ds.save_transaction t).save_account
          (Account.round_values
            { a with available := a.available + A, total := a.total + A }),
        .ok (Account.round_values
            { a with available := a.available + A, total := a.total + A })) := by
  simp [handle_deposit, hamt, save_account_to_datastore]

theorem handle_withdrawal_insufficient (ds : Datastore) (t : Transaction)
    (a : Account) {A : ℚ} (hamt : t.amount = some A) (hgt : A > a.available) :
    handle_withdrawal ds t a = (ds, .error .InsufficientAccountFunds) := by
  simp [handle_withdrawal, hamt, hgt]

theorem handle_withdrawal_ok (ds : Datastore) (t : Transaction) (a : Account)
    {A : ℚ} (hamt : t.amount = some A) (hle : ¬ A > a.available) :
    handle_withdrawal ds t a =
      ((ds.save_transaction t).save_account
          (Account.round_values
            { a with available := a.available - A, total := a.total - A }),
        .ok (Account.round_values
            { a with available := a.available - A, total := a.total - A })) := by
  simp [handle_withdrawal, hamt, hle, save_account_to_datastore]

theorem handle_dispute_not_found (ds : Datastore) (t : Transaction)
    (a : Account) (hf : ds.retrieve_transaction t.transaction_id = none) :
    handle_dispute ds t a = (ds, .error .DisputedTransactionNotFound) := by
  simp [handle_dispute, hf]

theorem handle_dispute_already (ds : Datastore) (t : Transaction) (a : Account)
    {rt : Transaction} (hf : ds.retrieve_transaction t.transaction_id = some rt)
    (hd : rt.disputed = true) :
    handle_dispute ds t a = (ds, .error .TransactionAlreadyDisputed) := by
  simp [handle_dispute, hf, hd]

theorem handle_dispute_no_amount (ds : Datastore) (t : Transaction)
    (a : Account) {rt : Transaction}
    (hf : ds.retrieve_transaction t.transaction_id = some rt)
    (hd : rt.disputed = false) (hamt : rt.amount = none) :
    handle_dispute ds t a = (ds, .error .NoAmount) := by
  simp [handle_dispute, hf, hd, hamt]

theorem handle_dispute_wrong_type (ds : Datastore) (t : Transaction)
    (a : Account) {rt : Transaction} {A : ℚ}
    (hf : ds.retrieve_transaction t.transaction_id = some rt)
    (hd : rt.disputed = false) (hamt : rt.amount = some A)
    (hty : rt.type = .Dispute ∨ rt.type = .Resolve ∨ rt.type = .Chargeback) :
    handle_dispute ds t a = (ds, .error .InvalidDisputedTransactionType) := by
  rcases hty with hty | hty | hty <;> simp [handle_dispute, hf, hd, hamt, hty]

theorem handle_dispute_deposit_ok (ds : Datastore) (t : Transaction)
    (a : Account) {rt : Transaction} {A : ℚ}
    (hf : ds.retrieve_transaction t.transaction_id = some rt)
    (hd : rt.disputed = false) (hamt : rt.amount = some A)
    (hty : rt.type = .Deposit) :
    handle_dispute ds t a =
      (Datastore.save_account
          { ds with transactions :=
              upsertTransaction ds.transactions { rt with disputed := true } }
          (Account.round_values
            { a with available := a.available - A, held := a.held + A }),
        .ok (Account.round_values
            { a with available := a.available - A, held := a.held + A })) := by
  have hf' : findTransaction ds.transactions t.transaction_id = some rt := by
    simpa [Datastore.retrieve_transaction] using hf
  have hid : rt.transaction_id = t.transaction_id := findTransaction_some_id hf'
  simp [handle_dispute, hf, hd, hamt, hty, Datastore.set_transaction_disputed,
    hid, hf', save_account_to_datastore]

theorem handle_dispute_withdrawal_ok (ds : Datastore) (t : Transaction)
    (a : Account) {rt : Transaction} {A : ℚ}
    (hf : ds.retrieve_transaction t.transaction_id = some rt)
    (hd : rt.disputed = false) (hamt : rt.amount = some A)
    (hty : rt.type = .Withdrawal) :
    handle_dispute ds t a =
      (Datastore.save_account
          { ds with transactions :=
              upsertTransaction ds.transactions { rt with disputed := true } }
          (Account.round_values
            { a with held := a.held + A, total := a.total + A }),
        .ok (Account.round_values
            { a with held := a.held + A, total := a.total + A })) := by
  have hf' : findTransaction ds.transactions t.transaction_id = some rt := by
    simpa [Datastore.retrieve_transaction] using hf
  have hid : rt.transaction_id = t.transaction_id := findTransaction_some_id hf'
  simp [handle_dispute, hf, hd, hamt, hty, Datastore.set_transaction_disputed,
    hid, hf', save_account_to_datastore]

theorem handle_resolve_not_found (ds : Datastore) (t : Transaction)
    (a : Account) (hf : ds.retrieve_transaction t.transaction_id = none) :
    handle_resolve ds t a = (ds, .error .DisputedTransactionNotFound) := by
  simp [handle_resolve, hf]

theorem handle_resolve_not_disputed (ds : Datastore) (t : Transaction)
    (a : Account) {rt : Transaction}
    (hf : ds.retrieve_transaction t.transaction_id = some rt)
    (hd : rt.disputed = false) :
    handle_resolve ds t a = (ds, .error .TransactionNotDisputed) := by
  simp [handle_resolve, hf, hd]

theorem handle_resolve_no_amount (ds : Datastore) (t : Transaction)
    (a : Account) {rt : Transaction}
    (hf : ds.retrieve_transaction t.transaction_id = some rt)
    (hd : rt.disputed = true) (hamt : rt.amount = none) :
    handle_resolve ds t a = (ds, .error .NoAmount) := by
  simp [handle_resolve, hf, hd, hamt]

theorem handle_resolve_wrong_type (ds : Datastore) (t : Transaction)
    (a : Account) {rt : Transaction} {A : ℚ}
    (hf : ds.retrieve_transaction t.transaction_id = some rt)
    (hd : rt.disputed = true) (hamt : rt.amount = some A)
    (hty : rt.type = .Dispute ∨ rt.type = .Resolve ∨ rt.type = .Chargeback) :
    handle_resolve ds t a = (ds, .error .InvalidDisputedTransactionType) := by
  rcases hty with hty | hty | hty <;> simp [handle_resolve, hf, hd, hamt, hty]

theorem handle_resolve_ok (ds : Datastore) (t : Transaction) (a : Account)
    {rt : Transaction} {A : ℚ}
    (hf : ds.retrieve_transaction t.transaction_id = some rt)
    (hd : rt.disputed = true) (hamt : rt.amount = some A)
    (hty : rt.type = .Deposit ∨ rt.type = .Withdrawal) :
    handle_resolve ds t a =
      (Datastore.save_account
          { ds with transactions :=
              upsertTransaction ds.transactions { rt with disputed := false } }
          (Account.round_values
            { a with available := a.available + A, held := a.held - A }),
        .ok (Account.round_values
            { a with available := a.available + A, held := a.held - A })) := by
  have hf' : findTransaction ds.transactions t.transaction_id = some rt := by
    simpa [Datastore.retrieve_transaction] using hf
  have hid : rt.transaction_id = t.transaction_id := findTransaction_some_id hf'
  rcases hty with hty | hty <;>
    simp [handle_resolve, hf, hd, hamt, hty, remove_disputed_state,
      Datastore.set_transaction_disputed, hid, hf',
      Datastore.remove_transaction_from_cache, save_account_to_datastore]

theorem handle_chargeback_not_found (ds : Datastore) (t : Transaction)
    (a : Account) (hf : ds.retrieve_transaction t.transaction_id = none) :
    handle_chargeback ds t a = (ds, .error .DisputedTransactionNotFound) := by
  simp [handle_chargeback, hf]

theorem handle_chargeback_not_disputed (ds : Datastore) (t : Transaction)
    (a : Account) {rt : Transaction}
    (hf : ds.retrieve_transaction t.transaction_id = some rt)
    (hd : rt.disputed = false) :
    handle_chargeback ds t a = (ds, .error .TransactionNotDisputed) := by
  simp [handle_chargeback, hf, hd]

theorem handle_chargeback_no_amount (ds : Datastore) (t : Transaction)
    (a : Account) {rt : Transaction}
    (hf : ds.retrieve_transaction t.transaction_id = some rt)
    (hd : rt.disputed = true) (hamt : rt.amount = none) :
    handle_chargeback ds t a = (ds, .error .NoAmount) := by
  simp [handle_chargeback, hf, hd, hamt]

theorem handle_chargeback_wrong_type (ds : Datastore) (t : Transaction)
    (a : Account) {rt : Transaction} {A : ℚ}
    (hf : ds.retrieve_transaction t.transaction_id = some rt)
    (hd : rt.disputed = true) (hamt : rt.amount = some A)
    (hty : rt.type = .Dispute ∨ rt.type = .Resolve ∨ rt.type = .Chargeback) :
    handle_chargeback ds t a = (ds, .error .InvalidDisputedTransactionType) := by
  rcases hty with hty | hty | hty <;>
    simp [handle_chargeback, hf, hd, hamt, hty]

theorem handle_chargeback_ok (ds : Datastore) (t : Transaction) (a : Account)
    {rt : Transaction} {A : ℚ}
    (hf : ds.retrieve_transaction t.transaction_id = some rt)
    (hd : rt.disputed = true) (hamt : rt.amount = some A)
    (hty : rt.type = .Deposit ∨ rt.type = .Withdrawal) :
    handle_chargeback ds t a =
      (Datastore.save_account
          { ds with transactions :=
              upsertTransaction ds.transactions { rt with disputed := false } }
          (Account.round_values
            { a with held := a.held - A, total := a.total - A,
                     locked := true }),
        .ok (Account.round_values
            { a with held := a.held - A, total := a.total - A,
                     locked := true })) := by
  have hf' : findTransaction ds.transactions t.transaction_id = some rt := by
    simpa [Datastore.retrieve_transaction] using hf
  have hid : rt.transaction_id = t.transaction_id := findTransaction_some_id hf'
  rcases hty with hty | hty <;>
    simp [handle_chargeback, hf, hd, hamt, hty, remove_disputed_state,
      Datastore.set_transaction_disputed, hid, hf',
      Datastore.remove_transaction_from_cache, save_account_to_datastore]

theorem process_transaction_cases (ds : Datastore) (t : Transaction)
    (a : Account) :
    ((process_transaction ds t a).1 = ds ∧
        ∃ e, (process_transaction ds t a).2 = .error e) ∨
      ∃ a', (process_transaction ds t a).2 = .ok a' ∧
        a'.client_id = a.client_id ∧ (a.locked = true → a'.locked = true) ∧
        (process_transaction ds t a).1.accounts =
          upsertAccount ds.accounts a' := by
  cases ht : t.type with
  | Deposit =>
    cases hamt : t.amount with
    | none =>
      exact .inl ⟨by simp [process_transaction, ht, handle_deposit, hamt],
        .NoAmount, by simp [process_transaction, ht, handle_deposit, hamt]⟩
    | some A =>
      have h := handle_deposit_ok ds t a hamt
      exact .inr ⟨Account.round_values
          { a with available := a.available + A, total := a.total + A },
        by simp [process_transaction, ht, h],
        by simp [Account.round_values],
        fun hl => by simp [Account.round_values, hl],
        by simp [process_transaction, ht, h, Datastore.save_transaction,
          Datastore.save_account]⟩
  | Withdrawal =>
    cases hamt : t.amount with
    | none =>
      exact .inl ⟨by simp [process_transaction, ht, handle_withdrawal, hamt],
        .NoAmount, by simp [process_transaction, ht, handle_withdrawal, hamt]⟩
    | some A =>
      by_cases hgt : A > a.available
      · have h := handle_withdrawal_insufficient ds t a hamt hgt
        exact .inl ⟨by simp [process_transaction, ht, h],
          .InsufficientAccountFunds, by simp [process_transaction, ht, h]⟩
      · have h := handle_withdrawal_ok ds t a hamt hgt
        exact .inr ⟨Account.round_values
            { a with available := a.available - A, total := a.total - A },
          by simp [process_transaction, ht, h],
          by simp [Account.round_values],
          fun hl => by simp [Account.round_values, hl],
          by simp [process_transaction, ht, h, Datastore.save_transaction,
            Datastore.save_account]⟩
  | Dispute =>
    cases hf : ds.retrieve_transaction t.transaction_id with
    | none =>
      have h := handle_dispute_not_found ds t a hf
      exact .inl ⟨by simp [process_transaction, ht, h],
        .DisputedTransactionNotFound, by simp [process_transaction, ht, h]⟩
    | some rt =>
      cases hd : rt.disputed with
      | true =>
        have h := handle_dispute_already ds t a hf hd
        exact .inl ⟨by simp [process_transaction, ht, h],
          .TransactionAlreadyDisputed, by simp [process_transaction, ht, h]⟩
      | false =>
        cases hamt : rt.amount with
        | none =>
          have h := handle_dispute_no_amount ds t a hf hd hamt
          exact .inl ⟨by simp [process_transaction, ht, h], .NoAmount,
            by simp [process_transaction, ht, h]⟩
        | some A =>
          cases hty : rt.type with
          | Deposit =>
            have h := handle_dispute_deposit_ok ds t a hf hd hamt hty
            exact .inr ⟨Account.round_values
                { a with available := a.available - A, held := a.held + A },
              by simp [process_transaction, ht, h],
              by simp [Account.round_values],
              fun hl => by simp [Account.round_values, hl],
              by simp [process_transaction, ht, h, Datastore.save_account]⟩
          | Withdrawal =>
            have h := handle_dispute_withdrawal_ok ds t a hf hd hamt hty
            exact .inr ⟨Account.round_values
                { a with held := a.held + A, total := a.total + A },
              by simp [process_transaction, ht, h],
              by simp [Account.round_values],
              fun hl => by simp [Account.round_values, hl],
              by simp [process_transaction, ht, h, Datastore.save_account]⟩
          | Dispute =>
            have h := handle_dispute_wrong_type ds t a hf hd hamt (.inl hty)
            exact .inl ⟨by simp [process_transaction, ht, h],
              .InvalidDisputedTransactionType,
              by simp [process_transaction, ht, h]⟩
          | Resolve =>
            have h := handle_dispute_wrong_type ds t a hf hd hamt
              (.inr (.inl hty))
            exact .inl ⟨by simp [process_transaction, ht, h],
              .InvalidDisputedTransactionType,
              by simp [process_transaction, ht, h]⟩
          | Chargeback =>
            have h := handle_dispute_wrong_type ds t a hf hd hamt
              (.inr (.inr hty))
            exact .inl ⟨by simp [process_transaction, ht, h],
              .InvalidDisputedTransactionType,
              by simp [process_transaction, ht, h]⟩
  | Resolve =>
    cases hf : ds.retrieve_transaction t.transaction_id with
    | none =>
      have h := handle_resolve_not_found ds t a hf
      exact .inl ⟨by simp [process_transaction, ht, h],
        .DisputedTransactionNotFound, by simp [process_transaction, ht, h]⟩
    | some rt =>
      cases hd : rt.disputed with
      | false =>
        have h := handle_resolve_not_disputed ds t a hf hd
        exact .inl ⟨by simp [process_transaction, ht, h],
          .TransactionNotDisputed, by simp [process_transaction, ht, h]⟩
      | true =>
        cases hamt : rt.amount with
        | none =>
          have h := handle_resolve_no_amount ds t a hf hd hamt
          exact .inl ⟨by simp [process_transaction, ht, h], .NoAmount,
            by simp [process_transaction, ht, h]⟩
        | some A =>
          cases hty : rt.type with
          | Deposit =>
            have h := handle_resolve_ok ds t a hf hd hamt (.inl hty)
            exact .inr ⟨Account.round_values
                { a with available := a.available + A, held := a.held - A },
              by simp [process_transaction, ht, h],
              by simp [Account.round_values],
              fun hl => by simp [Account.round_values, hl],
              by simp [process_transaction, ht, h, Datastore.save_account]⟩
          | Withdrawal =>
            have h := handle_resolve_ok ds t a hf hd hamt (.inr hty)
            exact .inr ⟨Account.round_values
                { a with available := a.available + A, held := a.held - A },
              by simp [process_transaction, ht, h],
              by simp [Account.round_values],
              fun hl => by simp [Account.round_values, hl],
              by simp [process_transaction, ht, h, Datastore.save_account]⟩
          | Dispute =>
            have h := handle_resolve_wrong_type ds t a hf hd hamt (.inl hty)
            exact .inl ⟨by simp [process_transaction, ht, h],
              .InvalidDisputedTransactionType,
              by simp [process_transaction, ht, h]⟩
          | Resolve =>
            have h := handle_resolve_wrong_type ds t a hf hd hamt
              (.inr (.inl hty))
            exact .inl ⟨by simp [process_transaction, ht, h],
              .InvalidDisputedTransactionType,
              by simp [process_transaction, ht, h]⟩
          | Chargeback =>
            have h := handle_resolve_wrong_type ds t a hf hd hamt
              (.inr (.inr hty))
            exact .inl ⟨by simp [process_transaction, ht, h],
              .InvalidDisputedTransactionType,
              by simp [process_transaction, ht, h]⟩
  | Chargeback =>
    cases hf : ds.retrieve_transaction t.transaction_id with
    | none =>
      have h := handle_chargeback_not_found ds t a hf
      exact .inl ⟨by simp [process_transaction, ht, h],
        .DisputedTransactionNotFound, by simp [process_transaction, ht, h]⟩
    | some rt =>
      cases hd : rt.disputed with
      | false =>
        have h := handle_chargeback_not_disputed ds t a hf hd
        exact .inl ⟨by simp [process_transaction, ht, h],
          .TransactionNotDisputed, by simp [process_transaction, ht, h]⟩
      | true =>
        cases hamt : rt.amount with
        | none =>
          have h := handle_chargeback_no_amount ds t a hf hd hamt
          exact .inl ⟨by simp [process_transaction, ht, h], .NoAmount,
            by simp [process_transaction, ht, h]⟩
        | some A =>
          cases hty : rt.type with
          | Deposit =>
            have h := handle_chargeback_ok ds t a hf hd hamt (.inl hty)
            exact .inr ⟨Account.round_values
                { a with held := a.held - A, total := a.total - A,
                         locked := true },
              by simp [process_transaction, ht, h],
              by simp [Account.round_values],
              fun hl => by simp [Account.round_values],
              by simp [process_transaction, ht, h, Datastore.save_account]⟩
          | Withdrawal =>
            have h := handle_chargeback_ok ds t a hf hd hamt (.inr hty)
            exact .inr ⟨Account.round_values
                { a with held := a.held - A, total := a.total - A,
                         locked := true },
              by simp [process_transaction, ht, h],
              by simp [Account.round_values],
              fun hl => by simp [Account.round_values],
              by simp [process_transaction, ht, h, Datastore.save_account]⟩
          | Dispute =>
            have h := handle_chargeback_wrong_type ds t a hf hd hamt (.inl hty)
            exact .inl ⟨by simp [process_transaction, ht, h],
              .InvalidDisputedTransactionType,
              by simp [process_transaction, ht, h]⟩
          | Resolve =>
            have h := handle_chargeback_wrong_type ds t a hf hd hamt
              (.inr (.inl hty))
            exact .inl ⟨by simp [process_transaction, ht, h],
              .InvalidDisputedTransactionType,
              by simp [process_transaction, ht, h]⟩
          | Chargeback =>
            have h := handle_chargeback_wrong_type ds t a hf hd hamt
              (.inr (.inr hty))
            exact .inl ⟨by simp [process_transaction, ht, h],
              .InvalidDisputedTransactionType,
              by simp [process_transaction, ht, h]⟩

theorem process_transaction_error_fst (ds : Datastore) (t : Transaction)
    (a : Account) (e : PaymentEngineError)
    (h : (process_transaction ds t a).2 = .error e) :
    (process_transaction ds t a).1 = ds := by
  rcases process_transaction_cases ds t a with ⟨h1, _⟩ | ⟨a', hok, _⟩
  · exact h1
  · rw [hok] at h
    cases h

/-- Claim C2: if processing a transaction returns any error, nothing is
written to either store: the transaction record is not persisted and the
account state in the account store is exactly what it was before the
attempted mutation (no partial application). -/
theorem claim_C2 (ds : Datastore) (t : Transaction) (a : Account)
    (e : PaymentEngineError)
    (h : (process_transaction ds t a).2 = .error e) :
    (process_transaction ds t a).1.transactions = ds.transactions ∧
    (process_transaction ds t a).1.accounts = ds.accounts := by
  have h1 := process_transaction_error_fst ds t a e h
  exact ⟨by rw [h1], by rw [h1]⟩

/-- Witness for claim C2 at a concrete input: a Deposit with no amount fails
with NoAmount and leaves both stores empty. -/
theorem claim_C2_witness :
    (process_transaction { transactions := [], accounts := [] }
          { type := .Deposit, client_id := 1, transaction_id := 1,
            amount := none, disputed := false }
          (Account.new 1)).1.transactions = [] ∧
    (process_transaction { transactions := [], accounts := [] }
          { type := .Deposit, client_id := 1, transaction_id := 1,
            amount := none, disputed := false }
          (Account.new 1)).1.accounts = [] :=
  claim_C2 _ _ _ .NoAmount rfl

/-- Claim C8: a Dispute referencing a transaction whose disputed flag is
already true fails with TransactionAlreadyDisputed, and a Resolve or
Chargeback referencing a transaction whose disputed flag is false (including
a re-issued, already-applied Resolve or Chargeback) fails with
TransactionNotDisputed; in each case neither the account store nor the
transaction store changes. -/
theorem claim_C8 (ds : Datastore) (t : Transaction) (a : Account)
    (rt : Transaction)
    (hf : ds.retrieve_transaction t.transaction_id = some rt) :
    (t.type = .Dispute → rt.disputed = true →
      process_transaction ds t a = (ds, .error .TransactionAlreadyDisputed)) ∧
    (t.type = .Resolve → rt.disputed = false →
      process_transaction ds t a = (ds, .error .TransactionNotDisputed)) ∧
    (t.type = .Chargeback → rt.disputed = false →
      process_transaction ds t a = (ds, .error .TransactionNotDisputed)) := by
  refine ⟨fun hty hd => ?_, fun hty hd => ?_, fun hty hd => ?_⟩
  · simp [process_transaction, hty, handle_dispute_already ds t a hf hd]
  · simp [process_transaction, hty, handle_resolve_not_disputed ds t a hf hd]
  · simp [process_transaction, hty, handle_chargeback_not_disputed ds t a hf hd]

/-- Witness for claim C8 at a concrete input: disputing an already-disputed
deposit errors with TransactionAlreadyDisputed and changes nothing. -/
theorem claim_C8_witness :
    process_transaction
        { transactions := [⟨.Deposit, 1, 42, some 5, true⟩], accounts := [] }
        { type := .Dispute, client_id := 1, transaction_id := 42,
          amount := none, disputed := false }
        (Account.new 1) =
      ({ transactions := [⟨.Deposit, 1, 42, some 5, true⟩], accounts := [] },
        .error .TransactionAlreadyDisputed) :=
  (claim_C8
    { transactions := [⟨.Deposit, 1, 42, some 5, true⟩], accounts := [] }
    { type := .Dispute, client_id := 1, transaction_id := 42, amount := none,
      disputed := false }
    (Account.new 1) ⟨.Deposit, 1, 42, some 5, true⟩ rfl).1 rfl rfl

/-- Claim C7: a Withdrawal with a present amount is checked against available
only: amount above available fails with InsufficientAccountFunds leaving the
stores unchanged, amount equal to available succeeds leaving available at
zero, and amount at most available succeeds, decreasing available and total
by the amount. -/
theorem claim_C7 (ds : Datastore) (t : Transaction) (a : Account) (A : ℚ)
    (hty : t.type = .Withdrawal) (hamt : t.amount = some A)
    (hava : IsScale4 a.available) (htot : IsScale4 a.total) (hA : IsScale4 A) :
    (A > a.available →
      process_transaction ds t a = (ds, .error .InsufficientAccountFunds)) ∧
    (A = a.available →
      ∃ a', (process_transaction ds t a).2 = .ok a' ∧ a'.available = 0) ∧
    (A ≤ a.available →
      ∃ a', (process_transaction ds t a).2 = .ok a' ∧
        a'.available = a.available - A ∧ a'.total = a.total - A) := by
  refine ⟨fun hgt => ?_, fun heq => ?_, fun hle => ?_⟩
  · simp [process_transaction, hty,
      handle_withdrawal_insufficient ds t a hamt hgt]
  · have hnl : ¬ A > a.available := by rw [heq]; exact lt_irrefl _
    have h := handle_withdrawal_ok ds t a hamt hnl
    refine ⟨Account.round_values
        { a with available := a.available - A, total := a.total - A },
      by simp [process_transaction, hty, h], ?_⟩
    have h0 : roundDp4 0 = 0 := roundDp4_eq_self isScale4_zero
    simp [Account.round_values, heq, h0]
  · have hnl : ¬ A > a.available := not_lt.mpr hle
    have h := handle_withdrawal_ok ds t a hamt hnl
    exact ⟨Account.round_values
        { a with available := a.available - A, total := a.total - A },
      by simp [process_transaction, hty, h],
      by simp [Account.round_values, roundDp4_eq_self (hava.sub hA)],
      by simp [Account.round_values, roundDp4_eq_self (htot.sub hA)]⟩

/-- Witness for claim C7 at a concrete input: withdrawing 7 from an account
with available 5 fails with InsufficientAccountFunds and changes nothing. -/
theorem claim_C7_witness :
    process_transaction { transactions := [], accounts := [] }
        { type := .Withdrawal, client_id := 1, transaction_id := 2,
          amount := some 7, disputed := false }
        { client_id := 1, available := 5, held := 0, total := 5,
          locked := false } =
      ({ transactions := [], accounts := [] },
        .error .InsufficientAccountFunds) :=
  (claim_C7 _ _ _ 7 rfl rfl ⟨50000, by norm_num⟩ ⟨50000, by norm_num⟩
    ⟨70000, by norm_num⟩).1 (by norm_num)

/-- Claim C1: for every account whose balances are 4-digit-rounded decimals
satisfying total = available + held, and every operation that completes
successfully (amounts being 4-digit-normalized as the input boundary
guarantees), the resulting account again satisfies total = available + held
exactly: each handler updates both sides of the equation consistently. -/
theorem claim_C1 (ds : Datastore) (t : Transaction) (a : Account)
    (a' : Account) (hinv : a.total = a.available + a.held)
    (hava : IsScale4 a.available) (hheld : IsScale4 a.held)
    (htot : IsScale4 a.total)
    (hrow : ∀ A, t.amount = some A → IsScale4 A)
    (hstore : ∀ i rt A, ds.retrieve_transaction i = some rt →
      rt.amount = some A → IsScale4 A)
    (hok : (process_transaction ds t a).2 = .ok a') :
    a'.total = a'.available + a'.held := by
  cases ht : t.type with
  | Deposit =>
    cases hamt : t.amount with
    | none => simp [process_transaction, ht, handle_deposit, hamt] at hok
    | some A =>
      have hA := hrow A hamt
      have h := handle_deposit_ok ds t a hamt
      simp only [process_transaction, ht, h] at hok
      injection hok with hok2
      subst hok2
      simp only [Account.round_values]
      rw [roundDp4_eq_self (htot.add hA), roundDp4_eq_self (hava.add hA),
        roundDp4_eq_self hheld, hinv]
      ring
  | Withdrawal =>
    cases hamt : t.amount with
    | none => simp [process_transaction, ht, handle_withdrawal, hamt] at hok
    | some A =>
      have hA := hrow A hamt
      by_cases hgt : A > a.available
      · simp [process_transaction, ht,
          handle_withdrawal_insufficient ds t a hamt hgt] at hok
      · have h := handle_withdrawal_ok ds t a hamt hgt
        simp only [process_transaction, ht, h] at hok
        injection hok with hok2
        subst hok2
        simp only [Account.round_values]
        rw [roundDp4_eq_self (htot.sub hA), roundDp4_eq_self (hava.sub hA),
          roundDp4_eq_self hheld, hinv]
        ring
  | Dispute =>
    cases hf : ds.retrieve_transaction t.transaction_id with
    | none =>
      simp [process_transaction, ht, handle_dispute_not_found ds t a hf] at hok
    | some rt =>
      cases hd : rt.disputed with
      | true =>
        simp [process_transaction, ht,
          handle_dispute_already ds t a hf hd] at hok
      | false =>
        cases hamt : rt.amount with
        | none =>
          simp [process_transaction, ht,
            handle_dispute_no_amount ds t a hf hd hamt] at hok
        | some A =>
          have hA := hstore t.transaction_id rt A hf hamt
          cases hty : rt.type with
          | Deposit =>
            have h := handle_dispute_deposit_ok ds t a hf hd hamt hty
            simp only [process_transaction, ht, h] at hok
            injection hok with hok2
            subst hok2
            simp only [Account.round_values]
            rw [roundDp4_eq_self htot, roundDp4_eq_self (hava.sub hA),
              roundDp4_eq_self (hheld.add hA), hinv]
            ring
          | Withdrawal =>
            have h := handle_dispute_withdrawal_ok ds t a hf hd hamt hty
            simp only [process_transaction, ht, h] at hok
            injection hok with hok2
            subst hok2
            simp only [Account.round_values]
            rw [roundDp4_eq_self (htot.add hA), roundDp4_eq_self hava,
              roundDp4_eq_self (hheld.add hA), hinv]
            ring
          | Dispute =>
            simp [process_transaction, ht,
              handle_dispute_wrong_type ds t a hf hd hamt (.inl hty)] at hok
          | Resolve =>
            simp [process_transaction, ht, handle_dispute_wrong_type ds t a hf
              hd hamt (.inr (.inl hty))] at hok
          | Chargeback =>
            simp [process_transaction, ht, handle_dispute_wrong_type ds t a hf
              hd hamt (.inr (.inr hty))] at hok
  | Resolve =>
    cases hf : ds.retrieve_transaction t.transaction_id with
    | none =>
      simp [process_transaction, ht, handle_resolve_not_found ds t a hf] at hok
    | some rt =>
      cases hd : rt.disputed with
      | false =>
        simp [process_transaction, ht,
          handle_resolve_not_disputed ds t a hf hd] at hok
      | true =>
        cases hamt : rt.amount with
        | none =>
          simp [process_transaction, ht,
            handle_resolve_no_amount ds t a hf hd hamt] at hok
        | some A =>
          have hA := hstore t.transaction_id rt A hf hamt
          cases hty : rt.type with
          | Deposit =>
            have h := handle_resolve_ok ds t a hf hd hamt (.inl hty)
            simp only [process_transaction, ht, h] at hok
            injection hok with hok2
            subst hok2
            simp only [Account.round_values]
            rw [roundDp4_eq_self htot, roundDp4_eq_self (hava.add hA),
              roundDp4_eq_self (hheld.sub hA), hinv]
            ring
          | Withdrawal =>
            have h := handle_resolve_ok ds t a hf hd hamt (.inr hty)
            simp only [process_transaction, ht, h] at hok
            injection hok with hok2
            subst hok2
            simp only [Account.round_values]
            rw [roundDp4_eq_self htot, roundDp4_eq_self (hava.add hA),
              roundDp4_eq_self (hheld.sub hA), hinv]
            ring
          | Dispute =>
            simp [process_transaction, ht,
              handle_resolve_wrong_type ds t a hf hd hamt (.inl hty)] at hok
          | Resolve =>
            simp [process_transaction, ht, handle_resolve_wrong_type ds t a hf
              hd hamt (.inr (.inl hty))] at hok
          | Chargeback =>
            simp [process_transaction, ht, handle_resolve_wrong_type ds t a hf
              hd hamt (.inr (.inr hty))] at hok
  | Chargeback =>
    cases hf : ds.retrieve_transaction t.transaction_id with
    | none =>
      simp [process_transaction, ht,
        handle_chargeback_not_found ds t a hf] at hok
    | some rt =>
      cases hd : rt.disputed with
      | false =>
        simp [process_transaction, ht,
          handle_chargeback_not_disputed ds t a hf hd] at hok
      | true =>
        cases hamt : rt.amount with
        | none =>
          simp [process_transaction, ht,
            handle_chargeback_no_amount ds t a hf hd hamt] at hok
        | some A =>
          have hA := hstore t.transaction_id rt A hf hamt
          cases hty : rt.type with
          | Deposit =>
            have h := handle_chargeback_ok ds t a hf hd hamt (.inl hty)
            simp only [process_transaction, ht, h] at hok
            injection hok with hok2
            subst hok2
            simp only [Account.round_values]
            rw [roundDp4_eq_self (htot.sub hA), roundDp4_eq_self hava,
              roundDp4_eq_self (hheld.sub hA), hinv]
            ring
          | Withdrawal =>
            have h := handle_chargeback_ok ds t a hf hd hamt (.inr hty)
            simp only [process_transaction, ht, h] at hok
            injection hok with hok2
            subst hok2
            simp only [Account.round_values]
            rw [roundDp4_eq_self (htot.sub hA), roundDp4_eq_self hava,
              roundDp4_eq_self (hheld.sub hA), hinv]
            ring
          | Dispute =>
            simp [process_transaction, ht,
              handle_chargeback_wrong_type ds t a hf hd hamt (.inl hty)] at hok
          | Resolve =>
            simp [process_transaction, ht, handle_chargeback_wrong_type ds t a
              hf hd hamt (.inr (.inl hty))] at hok
          | Chargeback =>
            simp [process_transaction, ht, handle_chargeback_wrong_type ds t a
              hf hd hamt (.inr (.inr hty))] at hok

/-- Witness for claim C1 at a concrete input: a deposit of 5 on a fresh
account succeeds and the result satisfies total = available + held. -/
theorem claim_C1_witness :
    (process_transaction { transactions := [], accounts := [] }
          ⟨.Deposit, 1, 1, some 5, false⟩ (Account.new 1)).2 =
        .ok { client_id := 1, available := 5, held := 0, total := 5,
              locked := false } ∧
    (5 : ℚ) = 5 + 0 := by
  have h5 : roundDp4 (5 : ℚ) = 5 :=
    roundDp4_eq_self ⟨50000, by norm_num⟩
  have h0 : roundDp4 (0 : ℚ) = 0 := roundDp4_eq_self isScale4_zero
  have hok : (process_transaction { transactions := [], accounts := [] }
      ⟨.Deposit, 1, 1, some 5, false⟩ (Account.new 1)).2 =
        .ok { client_id := 1, available := 5, held := 0, total := 5,
              locked := false } := by
    norm_num [process_transaction, handle_deposit, save_account_to_datastore,
      Account.round_values, Account.new, h5, h0]
  refine ⟨hok, ?_⟩
  have := claim_C1 { transactions := [], accounts := [] }
    ⟨.Deposit, 1, 1, some 5, false⟩ (Account.new 1)
    { client_id := 1, available := 5, held := 0, total := 5, locked := false }
    (by norm_num [Account.new]) isScale4_zero isScale4_zero isScale4_zero
    (fun A hA => by
      injection hA with h
      exact h ▸ ⟨50000, by norm_num⟩)
    (fun i rt A hf => by
      simp [Datastore.retrieve_transaction, findTransaction, List.find?] at hf)
    hok
  exact this

/-- Claim C3: a Dispute whose referenced transaction exists, is not already
disputed, has an amount, and is a Deposit or a Withdrawal succeeds; for a
referenced Deposit, available decreases by the amount and held increases by
it with total unchanged; for a referenced Withdrawal, held and total each
increase by it with available unchanged; in both cases the referenced
transaction is stored with disputed = true. Stated over 4-digit-rounded
balances and amounts, the form every stored value has. -/
theorem claim_C3 (ds : Datastore) (t : Transaction) (a : Account)
    (rt : Transaction) (A : ℚ)
    (htyt : t.type = .Dispute)
    (hf : ds.retrieve_transaction t.transaction_id = some rt)
    (hnd : rt.disputed = false) (hamt : rt.amount = some A)
    (hA : IsScale4 A) (hava : IsScale4 a.available) (hheld : IsScale4 a.held)
    (htot : IsScale4 a.total) :
    (rt.type = .Deposit →
      ∃ a', (process_transaction ds t a).2 = .ok a' ∧
        a'.available = a.available - A ∧ a'.held = a.held + A ∧
        a'.total = a.total) ∧
    (rt.type = .Withdrawal →
      ∃ a', (process_transaction ds t a).2 = .ok a' ∧
        a'.held = a.held + A ∧ a'.total = a.total + A ∧
        a'.available = a.available) ∧
    ((rt.type = .Deposit ∨ rt.type = .Withdrawal) →
      (process_transaction ds t a).1.retrieve_transaction rt.transaction_id =
        some { rt with disputed := true }) := by
  refine ⟨fun hty => ?_, fun hty => ?_, fun hty => ?_⟩
  · have h := handle_dispute_deposit_ok ds t a hf hnd hamt hty
    exact ⟨Account.round_values
        { a with available := a.available - A, held := a.held + A },
      by simp [process_transaction, htyt, h],
      by simp [Account.round_values, roundDp4_eq_self (hava.sub hA)],
      by simp [Account.round_values, roundDp4_eq_self (hheld.add hA)],
      by simp [Account.round_values, roundDp4_eq_self htot]⟩
  · have h := handle_dispute_withdrawal_ok ds t a hf hnd hamt hty
    exact ⟨Account.round_values
        { a with held := a.held + A, total := a.total + A },
      by simp [process_transaction, htyt, h],
      by simp [Account.round_values, roundDp4_eq_self (hheld.add hA)],
      by simp [Account.round_values, roundDp4_eq_self (htot.add hA)],
      by simp [Account.round_values, roundDp4_eq_self hava]⟩
  · rcases hty with hty | hty
    · have h := handle_dispute_deposit_ok ds t a hf hnd hamt hty
      simp [process_transaction, htyt, h, Datastore.save_account,
        Datastore.retrieve_transaction, findTransaction_upsertTransaction]
    · have h := handle_dispute_withdrawal_ok ds t a hf hnd hamt hty
      simp [process_transaction, htyt, h, Datastore.save_account,
        Datastore.retrieve_transaction, findTransaction_upsertTransaction]

/-- Witness for claim C3 at a concrete input: disputing a stored deposit of 5
against an account with available 10 moves 5 from available to held. -/
theorem claim_C3_witness :
    ∃ a', (process_transaction
        { transactions := [⟨.Deposit, 1, 7, some 5, false⟩], accounts := [] }
        { type := .Dispute, client_id := 1, transaction_id := 7,
          amount := none, disputed := false }
        { client_id := 1, available := 10, held := 0, total := 10,
          locked := false }).2 = .ok a' ∧
      a'.available = 10 - 5 ∧ a'.held = 0 + 5 ∧ a'.total = 10 :=
  (claim_C3
    { transactions := [⟨.Deposit, 1, 7, some 5, false⟩], accounts := [] }
    { type := .Dispute, client_id := 1, transaction_id := 7, amount := none,
      disputed := false }
    { client_id := 1, available := 10, held := 0, total := 10,
      locked := false }
    ⟨.Deposit, 1, 7, some 5, false⟩ 5 rfl rfl rfl rfl
    ⟨50000, by norm_num⟩ ⟨100000, by norm_num⟩ isScale4_zero
    ⟨100000, by norm_num⟩).1 rfl

/-- Claim C6: a successful Deposit of A followed immediately by a Dispute of
that deposit and then a Resolve of it returns available, held and total
exactly to their values right after the deposit (the pre-dispute values), for
every 4-digit-normalized amount A. -/
theorem claim_C6 (ds : Datastore) (a : Account) (dep dis res : Transaction)
    (A : ℚ) (hA : IsScale4 A)
    (hdepty : dep.type = .Deposit) (hdepamt : dep.amount = some A)
    (hdepdis : dep.disputed = false)
    (hdisty : dis.type = .Dispute)
    (hdisid : dis.transaction_id = dep.transaction_id)
    (hresty : res.type = .Resolve)
    (hresid : res.transaction_id = dep.transaction_id) :
    ∃ ds1 a1 ds2 a2 ds3 a3,
      process_transaction ds dep a = (ds1, .ok a1) ∧
      process_transaction ds1 dis a1 = (ds2, .ok a2) ∧
      process_transaction ds2 res a2 = (ds3, .ok a3) ∧
      a3.available = a1.available ∧ a3.held = a1.held ∧
      a3.total = a1.total := by
  set a1 := Account.round_values
    { a with available := a.available + A, total := a.total + A } with ha1
  set ds1 := (ds.save_transaction dep).save_account a1 with hds1
  have p1 : process_transaction ds dep a = (ds1, .ok a1) := by
    have pp : process_transaction ds dep a = handle_deposit ds dep a := by
      simp [process_transaction, hdepty]
    rw [pp, handle_deposit_ok ds dep a hdepamt, hds1, ha1]
  have hf1 : ds1.retrieve_transaction dis.transaction_id = some dep := by
    rw [hds1]
    simp [Datastore.save_account, Datastore.save_transaction,
      Datastore.retrieve_transaction, hdisid, findTransaction_upsertTransaction]
  set a2 := Account.round_values
    { a1 with available := a1.available - A, held := a1.held + A } with ha2
  set ds2 := Datastore.save_account
    { ds1 with transactions :=
        upsertTransaction ds1.transactions { dep with disputed := true } }
    a2 with hds2
  have p2 : process_transaction ds1 dis a1 = (ds2, .ok a2) := by
    have pp : process_transaction ds1 dis a1 = handle_dispute ds1 dis a1 := by
      simp [process_transaction, hdisty]
    rw [pp, handle_dispute_deposit_ok ds1 dis a1 hf1 hdepdis hdepamt hdepty,
      hds2, ha2]
  have hf2 : ds2.retrieve_transaction res.transaction_id =
      some { dep with disputed := true } := by
    rw [hds2]
    simp [Datastore.save_account, Datastore.retrieve_transaction, hresid,
      findTransaction_upsertTransaction]
  have hd2 : ({ dep with disputed := true } : Transaction).disputed = true := by
    simp
  have hamt2 : ({ dep with disputed := true } : Transaction).amount =
      some A := by
    simp [hdepamt]
  have hty2 : ({ dep with disputed := true } : Transaction).type =
      TransactionType.Deposit := by
    simp [hdepty]
  have p3raw := handle_resolve_ok ds2 res a2 hf2 hd2 hamt2 (.inl hty2)
  have pp3 : process_transaction ds2 res a2 = handle_resolve ds2 res a2 := by
    simp [process_transaction, hresty]
  have p3 := pp3.trans p3raw
  have s1a : IsScale4 a1.available := by
    rw [ha1]; exact isScale4_roundDp4 _
  have s1h : IsScale4 a1.held := by
    rw [ha1]; exact isScale4_roundDp4 _
  have s1t : IsScale4 a1.total := by
    rw [ha1]; exact isScale4_roundDp4 _
  have hv2a : a2.available = a1.available - A := by
    rw [ha2]
    exact roundDp4_eq_self (s1a.sub hA)
  have hv2h : a2.held = a1.held + A := by
    rw [ha2]
    exact roundDp4_eq_self (s1h.add hA)
  have hv2t : a2.total = a1.total := by
    rw [ha2]
    exact roundDp4_eq_self s1t
  refine ⟨ds1, a1, ds2, a2, _, _, p1, p2, p3, ?_, ?_, ?_⟩
  · show roundDp4 (a2.available + A) = a1.available
    rw [hv2a]
    have he : a1.available - A + A = a1.available := by ring
    rw [he]
    exact roundDp4_eq_self s1a
  · show roundDp4 (a2.held - A) = a1.held
    rw [hv2h]
    have he : a1.held + A - A = a1.held := by ring
    rw [he]
    exact roundDp4_eq_self s1h
  · show roundDp4 a2.total = a1.total
    rw [hv2t]
    exact roundDp4_eq_self s1t

/-- Witness for claim C6 at a concrete input: deposit 5, dispute it, resolve
it, starting from a fresh account; the balances return to the post-deposit
values. -/
theorem claim_C6_witness :
    ∃ ds1 a1 ds2 a2 ds3 a3,
      process_transaction { transactions := [], accounts := [] }
          ⟨.Deposit, 1, 9, some 5, false⟩ (Account.new 1) = (ds1, .ok a1) ∧
      process_transaction ds1 ⟨.Dispute, 1, 9, none, false⟩ a1 =
        (ds2, .ok a2) ∧
      process_transaction ds2 ⟨.Resolve, 1, 9, none, false⟩ a2 =
        (ds3, .ok a3) ∧
      a3.available = a1.available ∧ a3.held = a1.held ∧
      a3.total = a1.total :=
  claim_C6 { transactions := [], accounts := [] } (Account.new 1)
    ⟨.Deposit, 1, 9, some 5, false⟩ ⟨.Dispute, 1, 9, none, false⟩
    ⟨.Resolve, 1, 9, none, false⟩ 5 ⟨50000, by norm_num⟩
    rfl rfl rfl rfl rfl rfl rfl

theorem retrieve_account_client_id (ds : Datastore) (c : Nat) :
    (retrieve_account ds c).client_id = c := by
  cases hfa : findAccount ds.accounts c with
  | none => simp [retrieve_account, Datastore.retrieve_account, hfa,
      Account.new]
  | some b => simp [retrieve_account, Datastore.retrieve_account, hfa,
      findAccount_some_id hfa]

theorem runStep_locked_persists (ds : Datastore) (t : Transaction) (c : Nat)
    (h : ∃ a, findAccount ds.accounts c = some a ∧ a.locked = true) :
    ∃ a', findAccount (runStep ds t).accounts c = some a' ∧
      a'.locked = true := by
  obtain ⟨a, hfind, hlock⟩ := h
  have hrun : runStep ds t =
      (process_transaction ds t (retrieve_account ds t.client_id)).1 := rfl
  rcases process_transaction_cases ds t (retrieve_account ds t.client_id) with
    ⟨h1, _⟩ | ⟨a', hok, hcid, hmono, hacc⟩
  · refine ⟨a, ?_, hlock⟩
    rw [hrun, h1]
    exact hfind
  · have hrc := retrieve_account_client_id ds t.client_id
    by_cases hc : t.client_id = c
    · have hra : retrieve_account ds t.client_id = a := by
        rw [hc]
        simp [retrieve_account, Datastore.retrieve_account, hfind]
      have hl' : a'.locked = true := hmono (by rw [hra]; exact hlock)
      refine ⟨a', ?_, hl'⟩
      rw [hrun, hacc, findAccount_upsertAccount]
      have h1 : a'.client_id = c := by rw [hcid, hrc]; exact hc
      simp [h1]
    · refine ⟨a, ?_, hlock⟩
      rw [hrun, hacc, findAccount_upsertAccount]
      have h1 : ¬ a'.client_id = c := by rw [hcid, hrc]; exact hc
      simp [h1, hfind]

theorem runList_locked_persists (c : Nat) (ts : List Transaction) :
    ∀ ds : Datastore,
      (∃ a, findAccount ds.accounts c = some a ∧ a.locked = true) →
      ∃ a', findAccount (runList ds ts).accounts c = some a' ∧
        a'.locked = true := by
  induction ts with
  | nil => intro ds h; simpa [runList] using h
  | cons t ts ih =>
    intro ds h
    simpa [runList] using ih (runStep ds t) (runStep_locked_persists ds t c h)

theorem process_locked_transparent (ds : Datastore) (t : Transaction)
    (b : Account) :
    (process_transaction ds t { b with locked := true }).2 =
      (process_transaction ds t b).2.map
        (fun x => { x with locked := true }) ∧
    (process_transaction ds t { b with locked := true }).1.transactions =
      (process_transaction ds t b).1.transactions := by
  cases ht : t.type with
  | Deposit =>
    cases hamt : t.amount with
    | none =>
      constructor <;> simp [process_transaction, Except.map, ht, handle_deposit, hamt]
    | some A =>
      have h1 := handle_deposit_ok ds t b hamt
      have h2 := handle_deposit_ok ds t { b with locked := true } hamt
      constructor <;>
        simp [process_transaction, Except.map, ht, h1, h2, Account.round_values,
          Datastore.save_transaction, Datastore.save_account]
  | Withdrawal =>
    cases hamt : t.amount with
    | none =>
      constructor <;> simp [process_transaction, Except.map, ht, handle_withdrawal, hamt]
    | some A =>
      by_cases hgt : A > b.available
      · have hgt' : A > ({ b with locked := true } : Account).available := hgt
        have h1 := handle_withdrawal_insufficient ds t b hamt hgt
        have h2 := handle_withdrawal_insufficient ds t
          { b with locked := true } hamt hgt'
        constructor <;> simp [process_transaction, Except.map, ht, h1, h2]
      · have hgt' : ¬ A > ({ b with locked := true } : Account).available :=
          hgt
        have h1 := handle_withdrawal_ok ds t b hamt hgt
        have h2 := handle_withdrawal_ok ds t { b with locked := true } hamt
          hgt'
        constructor <;>
          simp [process_transaction, Except.map, ht, h1, h2, Account.round_values,
            Datastore.save_transaction, Datastore.save_account]
  | Dispute =>
    cases hf : ds.retrieve_transaction t.transaction_id with
    | none =>
      have h1 := handle_dispute_not_found ds t b hf
      have h2 := handle_dispute_not_found ds t { b with locked := true } hf
      constructor <;> simp [process_transaction, Except.map, ht, h1, h2]
    | some rt =>
      cases hd : rt.disputed with
      | true =>
        have h1 := handle_dispute_already ds t b hf hd
        have h2 := handle_dispute_already ds t { b with locked := true } hf hd
        constructor <;> simp [process_transaction, Except.map, ht, h1, h2]
      | false =>
        cases hamt : rt.amount with
        | none =>
          have h1 := handle_dispute_no_amount ds t b hf hd hamt
          have h2 := handle_dispute_no_amount ds t { b with locked := true }
            hf hd hamt
          constructor <;> simp [process_transaction, Except.map, ht, h1, h2]
        | some A =>
          cases hty : rt.type with
          | Deposit =>
            have h1 := handle_dispute_deposit_ok ds t b hf hd hamt hty
            have h2 := handle_dispute_deposit_ok ds t
              { b with locked := true } hf hd hamt hty
            constructor <;>
              simp [process_transaction, Except.map, ht, h1, h2, Account.round_values,
                Datastore.save_account]
          | Withdrawal =>
            have h1 := handle_dispute_withdrawal_ok ds t b hf hd hamt hty
            have h2 := handle_dispute_withdrawal_ok ds t
              { b with locked := true } hf hd hamt hty
            constructor <;>
              simp [process_transaction, Except.map, ht, h1, h2, Account.round_values,
                Datastore.save_account]
          | Dispute =>
            have h1 := handle_dispute_wrong_type ds t b hf hd hamt (.inl hty)
            have h2 := handle_dispute_wrong_type ds t
              { b with locked := true } hf hd hamt (.inl hty)
            constructor <;> simp [process_transaction, Except.map, ht, h1, h2]
          | Resolve =>
            have h1 := handle_dispute_wrong_type ds t b hf hd hamt
              (.inr (.inl hty))
            have h2 := handle_dispute_wrong_type ds t
              { b with locked := true } hf hd hamt (.inr (.inl hty))
            constructor <;> simp [process_transaction, Except.map, ht, h1, h2]
          | Chargeback =>
            have h1 := handle_dispute_wrong_type ds t b hf hd hamt
              (.inr (.inr hty))
            have h2 := handle_dispute_wrong_type ds t
              { b with locked := true } hf hd hamt (.inr (.inr hty))
            constructor <;> simp [process_transaction, Except.map, ht, h1, h2]
  | Resolve =>
    cases hf : ds.retrieve_transaction t.transaction_id with
    | none =>
      have h1 := handle_resolve_not_found ds t b hf
      have h2 := handle_resolve_not_found ds t { b with locked := true } hf
      constructor <;> simp [process_transaction, Except.map, ht, h1, h2]
    | some rt =>
      cases hd : rt.disputed with
      | false =>
        have h1 := handle_resolve_not_disputed ds t b hf hd
        have h2 := handle_resolve_not_disputed ds t { b with locked := true }
          hf hd
        constructor <;> simp [process_transaction, Except.map, ht, h1, h2]
      | true =>
        cases hamt : rt.amount with
        | none =>
          have h1 := handle_resolve_no_amount ds t b hf hd hamt
          have h2 := handle_resolve_no_amount ds t { b with locked := true }
            hf hd hamt
          constructor <;> simp [process_transaction, Except.map, ht, h1, h2]
        | some A =>
          cases hty : rt.type with
          | Deposit =>
            have h1 := handle_resolve_ok ds t b hf hd hamt (.inl hty)
            have h2 := handle_resolve_ok ds t { b with locked := true } hf hd
              hamt (.inl hty)
            constructor <;>
              simp [process_transaction, Except.map, ht, h1, h2, Account.round_values,
                Datastore.save_account]
          | Withdrawal =>
            have h1 := handle_resolve_ok ds t b hf hd hamt (.inr hty)
            have h2 := handle_resolve_ok ds t { b with locked := true } hf hd
              hamt (.inr hty)
            constructor <;>
              simp [process_transaction, Except.map, ht, h1, h2, Account.round_values,
                Datastore.save_account]
          | Dispute =>
            have h1 := handle_resolve_wrong_type ds t b hf hd hamt (.inl hty)
            have h2 := handle_resolve_wrong_type ds t
              { b with locked := true } hf hd hamt (.inl hty)
            constructor <;> simp [process_transaction, Except.map, ht, h1, h2]
          | Resolve =>
            have h1 := handle_resolve_wrong_type ds t b hf hd hamt
              (.inr (.inl hty))
            have h2 := handle_resolve_wrong_type ds t
              { b with locked := true } hf hd hamt (.inr (.inl hty))
            constructor <;> simp [process_transaction, Except.map, ht, h1, h2]
          | Chargeback =>
            have h1 := handle_resolve_wrong_type ds t b hf hd hamt
              (.inr (.inr hty))
            have h2 := handle_resolve_wrong_type ds t
              { b with locked := true } hf hd hamt (.inr (.inr hty))
            constructor <;> simp [process_transaction, Except.map, ht, h1, h2]
  | Chargeback =>
    cases hf : ds.retrieve_transaction t.transaction_id with
    | none =>
      have h1 := handle_chargeback_not_found ds t b hf
      have h2 := handle_chargeback_not_found ds t { b with locked := true } hf
      constructor <;> simp [process_transaction, Except.map, ht, h1, h2]
    | some rt =>
      cases hd : rt.disputed with
      | false =>
        have h1 := handle_chargeback_not_disputed ds t b hf hd
        have h2 := handle_chargeback_not_disputed ds t
          { b with locked := true } hf hd
        constructor <;> simp [process_transaction, Except.map, ht, h1, h2]
      | true =>
        cases hamt : rt.amount with
        | none =>
          have h1 := handle_chargeback_no_amount ds t b hf hd hamt
          have h2 := handle_chargeback_no_amount ds t
            { b with locked := true } hf hd hamt
          constructor <;> simp [process_transaction, Except.map, ht, h1, h2]
        | some A =>
          cases hty : rt.type with
          | Deposit =>
            have h1 := handle_chargeback_ok ds t b hf hd hamt (.inl hty)
            have h2 := handle_chargeback_ok ds t { b with locked := true } hf
              hd hamt (.inl hty)
            constructor <;>
              simp [process_transaction, Except.map, ht, h1, h2, Account.round_values,
                Datastore.save_account]
          | Withdrawal =>
            have h1 := handle_chargeback_ok ds t b hf hd hamt (.inr hty)
            have h2 := handle_chargeback_ok ds t { b with locked := true } hf
              hd hamt (.inr hty)
            constructor <;>
              simp [process_transaction, Except.map, ht, h1, h2, Account.round_values,
                Datastore.save_account]
          | Dispute =>
            have h1 := handle_chargeback_wrong_type ds t b hf hd hamt
              (.inl hty)
            have h2 := handle_chargeback_wrong_type ds t
              { b with locked := true } hf hd hamt (.inl hty)
            constructor <;> simp [process_transaction, Except.map, ht, h1, h2]
          | Resolve =>
            have h1 := handle_chargeback_wrong_type ds t b hf hd hamt
              (.inr (.inl hty))
            have h2 := handle_chargeback_wrong_type ds t
              { b with locked := true } hf hd hamt (.inr (.inl hty))
            constructor <;> simp [process_transaction, Except.map, ht, h1, h2]
          | Chargeback =>
            have h1 := handle_chargeback_wrong_type ds t b hf hd hamt
              (.inr (.inr hty))
            have h2 := handle_chargeback_wrong_type ds t
              { b with locked := true } hf hd hamt (.inr (.inr hty))
            constructor <;> simp [process_transaction, Except.map, ht, h1, h2]

/-- Claim C9: once an account is locked it stays locked after every further
run step (locked is set only by a successful chargeback and never reset), and
no operation is short-circuited by the locked flag: processing any row
against a locked account produces the same outcome (success or error, same
balances, same transaction-store effect) as against the unlocked account,
with only the locked flag carried through. -/
theorem claim_C9 (ds : Datastore) (ts : List Transaction) (c : Nat)
    (a : Account) (hfind : findAccount ds.accounts c = some a)
    (hlock : a.locked = true) :
    (∃ a', findAccount (runList ds ts).accounts c = some a' ∧
      a'.locked = true) ∧
    ∀ ds' t b,
      (process_transaction ds' t { b with locked := true }).2 =
        (process_transaction ds' t b).2.map
          (fun x => { x with locked := true }) ∧
      (process_transaction ds' t { b with locked := true }).1.transactions =
        (process_transaction ds' t b).1.transactions :=
  ⟨runList_locked_persists c ts ds ⟨a, hfind, hlock⟩,
    fun ds' t b => process_locked_transparent ds' t b⟩

/-- Witness for claim C9 at a concrete input: a locked account stays locked
across a further deposit for the same client. -/
theorem claim_C9_witness :
    ∃ a', findAccount (runList
        { transactions := [], accounts := [⟨1, 0, 0, 0, true⟩] }
        [⟨.Deposit, 1, 1, some 5, false⟩]).accounts 1 = some a' ∧
      a'.locked = true :=
  (claim_C9 { transactions := [], accounts := [⟨1, 0, 0, 0, true⟩] }
    [⟨.Deposit, 1, 1, some 5, false⟩] 1 ⟨1, 0, 0, 0, true⟩ rfl rfl).1

/-- Claim C10: the dispute handler subtracts the referenced deposit amount
from available with no lower-bound check, so available can go negative: a
deposit of 5, a withdrawal of 5 and a dispute of the deposit, all
successful, leave the account with available = -5 < 0. -/
theorem claim_C10 :
    findAccount (runList { transactions := [], accounts := [] }
        [⟨.Deposit, 1, 1, some 5, false⟩, ⟨.Withdrawal, 1, 2, some 5, false⟩,
          ⟨.Dispute, 1, 1, none, false⟩]).accounts 1 =
      some { client_id := 1, available := -5, held := 5, total := 0,
             locked := false } ∧
    (-5 : ℚ) < 0 := by
  have h0 : roundDp4 0 = 0 := roundDp4_eq_self isScale4_zero
  have h5 : roundDp4 5 = 5 := roundDp4_eq_self ⟨50000, by norm_num⟩
  have hm5 : roundDp4 (-5) = -5 := roundDp4_eq_self ⟨-50000, by norm_num⟩
  refine ⟨?_, by norm_num⟩
  norm_num [runList, runStep, process_transaction, retrieve_account,
    Datastore.retrieve_account, Datastore.retrieve_transaction,
    handle_deposit, handle_withdrawal, handle_dispute,
    save_account_to_datastore, Datastore.save_transaction,
    Datastore.save_account, Datastore.set_transaction_disputed,
    findAccount, findTransaction, upsertAccount, upsertTransaction,
    Account.new, Account.round_values, h0, h5, hm5,
    Datastore.remove_transaction_from_cache]

theorem runList_absent_of_failing (c : Nat) (ts : List Transaction) :
    ∀ ds : Datastore, findAccount ds.accounts c = none →
      (∀ p t s, ts = p ++ t :: s → t.client_id = c →
        ∃ e, (process_transaction (runList ds p) t
          (retrieve_account (runList ds p) t.client_id)).2 = .error e) →
      findAccount (runList ds ts).accounts c = none := by
  induction ts with
  | nil => intro ds h0 _; simpa [runList] using h0
  | cons t ts ih =>
    intro ds h0 hfail
    have hrun : runStep ds t =
        (process_transaction ds t (retrieve_account ds t.client_id)).1 := rfl
    have hstep : findAccount (runStep ds t).accounts c = none := by
      rcases process_transaction_cases ds t
          (retrieve_account ds t.client_id) with
        ⟨h1, _⟩ | ⟨a', hok, hcid, _, hacc⟩
      · rw [hrun, h1]; exact h0
      · by_cases hc : t.client_id = c
        · obtain ⟨e, he⟩ := hfail [] t ts rfl hc
          simp only [runList] at he
          rw [hok] at he
          cases he
        · rw [hrun, hacc, findAccount_upsertAccount]
          have h1 : ¬ a'.client_id = c := by
            rw [hcid, retrieve_account_client_id]; exact hc
          simp [h1, h0]
    have hfail' : ∀ p t' s, ts = p ++ t' :: s → t'.client_id = c →
        ∃ e, (process_transaction (runList (runStep ds t) p) t'
          (retrieve_account (runList (runStep ds t) p) t'.client_id)).2 =
            .error e := by
      intro p t' s hp hc
      have hsplit : t :: ts = (t :: p) ++ t' :: s := by
        rw [hp]; rfl
      have := hfail (t :: p) t' s hsplit hc
      simpa [runList] using this
    simpa [runList] using ih (runStep ds t) hstep hfail'

/-- Counterexample to claim C5 as stated: client 1 is referenced by an input
row (a withdrawal that fails with insufficient funds on the fresh zeroed
account), yet at the end of the run the account store holds no account at
all, so list_all does not contain an account for that client. -/
theorem claim_C5_counterexample :
    Datastore.retrieve_all_accounts
        (runList { transactions := [], accounts := [] }
          [⟨.Withdrawal, 1, 1, some 5, false⟩]) = [] := by
  norm_num [runList, runStep, process_transaction, handle_withdrawal,
    retrieve_account, Datastore.retrieve_account, findAccount, List.find?,
    Account.new, Datastore.retrieve_all_accounts]

/-- Claim C5 (amended): an Account object for a referenced client is created
lazily and zeroed on lookup, but it is written to the account store only by a
successful mutation: a client absent from the store all of whose rows fail
is still absent from the store (and hence from list_all) at the end of the
run. -/
theorem claim_C5 (ds : Datastore) (ts : List Transaction) (c : Nat)
    (h0 : findAccount ds.accounts c = none)
    (hfail : ∀ p t s, ts = p ++ t :: s → t.client_id = c →
      ∃ e, (process_transaction (runList ds p) t
        (retrieve_account (runList ds p) t.client_id)).2 = .error e) :
    retrieve_account ds c = Account.new c ∧
    findAccount (runList ds ts).accounts c = none :=
  ⟨by simp [retrieve_account, Datastore.retrieve_account, h0],
    runList_absent_of_failing c ts ds h0 hfail⟩

/-- Witness for the amended claim C5 at a concrete input: one failing
withdrawal row for client 1 leaves the account store without an entry for
client 1, while the lazily built account object is the zeroed one. -/
theorem claim_C5_witness :
    retrieve_account { transactions := [], accounts := [] } 1 =
        Account.new 1 ∧
    findAccount (runList { transactions := [], accounts := [] }
        [⟨.Withdrawal, 1, 1, some 5, false⟩]).accounts 1 = none :=
  claim_C5 { transactions := [], accounts := [] }
    [⟨.Withdrawal, 1, 1, some 5, false⟩] 1 rfl
    (by
      intro p t s hp hc
      cases p with
      | nil =>
        simp only [List.nil_append] at hp
        obtain ⟨rfl, rfl⟩ : t = ⟨.Withdrawal, 1, 1, some 5, false⟩ ∧
            s = [] := by
          constructor
          · exact (List.cons.inj hp).1.symm
          · exact (List.cons.inj hp).2.symm
        refine ⟨.InsufficientAccountFunds, ?_⟩
        norm_num [runList, process_transaction, handle_withdrawal,
          retrieve_account, Datastore.retrieve_account, findAccount,
          List.find?, Account.new]
      | cons x p' =>
        exfalso
        have hlen := congrArg List.length hp
        simp [List.length_append] at hlen)

/-- Claim C4 (amended): at the input boundary an empty amount string yields
an absent amount; a supplied value that parses to exactly zero is treated as
absent; any other parseable value is kept and normalized (rounded) to 4
fractional digits, which can itself produce a present zero amount. -/
theorem claim_C4 (s : String) :
    (s.isEmpty → amount_deserializer s = .ok none) ∧
    (∀ q, decimalFromStr s = some q → q = 0 →
      amount_deserializer s = .ok none) ∧
    (∀ q, decimalFromStr s = some q → q ≠ 0 →
      amount_deserializer s = .ok (some (roundDp4 q))) := by
  refine ⟨fun he => by simp [amount_deserializer, he], fun q hq h0 => ?_,
    fun q hq h0 => ?_⟩
  · by_cases he : s.isEmpty
    · simp [amount_deserializer, he]
    · simp [amount_deserializer, he, hq, h0]
  · by_cases he : s.isEmpty
    · exfalso
      have hs : s = "" := (String.isEmpty_iff s).mp he
      rw [hs] at hq
      simp [show decimalFromStr "" = (none : Option ℚ) from rfl] at hq
    · simp [amount_deserializer, he, hq, h0]

/-- Counterexample to claim C4 as stated: the supplied string 0.00001 parses
to a nonzero value that rounds to exactly zero at 4 fractional digits, yet
the deserializer keeps it as a present zero amount instead of treating it as
absent (the code tests is_zero before rounding, not after). -/
theorem claim_C4_counterexample :
    decimalFromStr "0.00001" = some (1 / 100000 : ℚ) ∧
    roundDp4 (1 / 100000 : ℚ) = 0 ∧
    amount_deserializer "0.00001" = .ok (some 0) := by
  have hp : parseDecimalCore "0.00001".data 0 0 false false =
      some (1, 5) := by
    decide
  have h1 : decimalFromStr "0.00001" = some (1 / 100000 : ℚ) := by
    have hd : decimalFromStr "0.00001" =
        (parseDecimalCore "0.00001".data 0 0 false false).map
          (fun p => (p.1 : ℚ) / (10 : ℚ) ^ p.2) := rfl
    rw [hd, hp]
    norm_num [Option.map]
  have h2 : roundDp4 (1 / 100000 : ℚ) = 0 := by
    norm_num [roundDp4, roundHalfEven]
  have he : ("0.00001" : String).isEmpty = false := by decide
  refine ⟨h1, h2, ?_⟩
  rw [← h2]
  norm_num [amount_deserializer, he, h1]

/-- Witness for the amended claim C4 at a concrete input: the nonzero string
1.23456 is kept and rounded to 4 fractional digits. -/
theorem claim_C4_witness :
    amount_deserializer "1.23456" =
      .ok (some (roundDp4 (123456 / 100000 : ℚ))) ∧
    roundDp4 (123456 / 100000 : ℚ) = 12346 / 10000 := by
  have hp : parseDecimalCore "1.23456".data 0 0 false false =
      some (123456, 5) := by
    decide
  have h1 : decimalFromStr "1.23456" = some (123456 / 100000 : ℚ) := by
    have hd : decimalFromStr "1.23456" =
        (parseDecimalCore "1.23456".data 0 0 false false).map
          (fun p => (p.1 : ℚ) / (10 : ℚ) ^ p.2) := rfl
    rw [hd, hp]
    norm_num [Option.map]
  refine ⟨?_, by norm_num [roundDp4, roundHalfEven]⟩
  exact (claim_C4 "1.23456").2.2 (123456 / 100000 : ℚ) h1 (by norm_num)

end PaymentService

end PaymentEngine
